import Mathlib

/-!
Shallow embedding of the LuminaPress DynamicPipelineExecutorFunction core:
the content pool (`ArticleRepository`), the backfill search
(`google_search_article_links`), the consensus image selector
(`ImageSelector.image_selector`), the relevance selector (`TextSelector`),
and the extractive summarizer (`UltraEfficientSummarizer`).

Python strings are Lean `String`, Python lists are Lean `List`, Python sets
used only for membership are Lean `List` with `∈`, similarity scores are `ℚ`.
External collaborators (network fetch, search engine, embedding models,
NLTK data) are parameters of the embedded functions.
-/

namespace LP

/-- Python `str.strip()`: drop leading and trailing whitespace. -/
def py_strip (s : String) : String :=
  ⟨((s.data.dropWhile Char.isWhitespace).reverse.dropWhile
      Char.isWhitespace).reverse⟩

/-- Python `str.startswith(p)` on character lists. -/
def starts_with (p s : String) : Bool :=
  p.data.isPrefixOf s.data

/-- Drop the first `n` characters of a string. -/
def drop_chars (n : Nat) (s : String) : String :=
  ⟨s.data.drop n⟩

/-- Lowercase every character of a string, as Python `str.lower` on ASCII. -/
def to_lower (s : String) : String :=
  ⟨s.data.map Char.toLower⟩

/-- Fueled left-to-right scan for `replace_all`: replace each non-overlapping
occurrence of the non-empty pattern `p` by `r`, not rescanning `r`. -/
def replace_all_aux (p r : List Char) : Nat → List Char → List Char
  | 0, s => s
  | _ + 1, [] => []
  | fuel + 1, c :: cs =>
    if p.isPrefixOf (c :: cs) then
      r ++ replace_all_aux p r fuel (cs.drop (p.length - 1))
    else c :: replace_all_aux p r fuel cs

/-- Python `str.replace(p, r)` for a non-empty pattern `p`: replace every
non-overlapping occurrence, scanning left to right. -/
def replace_all (s p r : String) : String :=
  ⟨replace_all_aux p.data r.data s.data.length s.data⟩

/-- Embeds the `seen`-set loop shared by `ArticleRepository._clean_list` /
`_clean_authors` and `collections.Counter` key order: keep the first
occurrence of each element, drop later duplicates.  The `seen` argument is
the set of already-kept elements. -/
def dedup_seen {α : Type} [DecidableEq α] : List α → List α → List α
  | [], _ => []
  | x :: xs, seen =>
    if x ∈ seen then dedup_seen xs seen else x :: dedup_seen xs (x :: seen)

/-- First-seen deduplication starting from an empty seen set. -/
def dedup_first {α : Type} [DecidableEq α] (l : List α) : List α :=
  dedup_seen l []

/-- Embeds `ArticleRepository._clean_list` (article_repository.py lines
31-50): strip each item, drop empties, drop duplicates keeping first-seen
order.  No case normalization happens in the source. -/
def clean_list (l : List String) : List String :=
  dedup_first ((l.map py_strip).filter (fun s => s ≠ ""))

/-- Embeds the scheme-separator scan of `urllib.parse.urlparse`: returns the
characters after the first occurrence of the three characters colon slash
slash, if any. -/
def after_scheme_sep : List Char → Option (List Char)
  | ':' :: '/' :: '/' :: rest => some rest
  | _ :: rest => after_scheme_sep rest
  | [] => none

/-- Modelled from the spec: `urllib.parse.urlparse(...).netloc` is Python
standard-library code outside src/.  Modelled for the URL shapes the
repository passes (absolute URLs with an explicit scheme): the substring
between the scheme separator and the next path, query or fragment
delimiter; empty when no scheme separator occurs. -/
def netloc (s : String) : String :=
  match after_scheme_sep s.data with
  | none => ""
  | some r => ⟨r.takeWhile (fun c => ¬(c = '/' ∨ c = '?' ∨ c = '#'))⟩

/-- Embeds the per-author cleaning step of
`ArticleRepository._clean_authors` (article_repository.py lines 52-88):
strip, then if URL-shaped use the netloc with every occurrence of
`www.` removed (Python `str.replace` replaces all occurrences), else keep
the stripped text. -/
def clean_author_name (s : String) : String :=
  let a := py_strip s
  let n := netloc a
  if n ≠ "" then replace_all n ("www.") ("") else a

/-- Embeds `ArticleRepository._clean_authors`: map each author through
`clean_author_name`, drop empties, first-seen dedup. -/
def clean_authors (l : List String) : List String :=
  dedup_first ((l.map clean_author_name).filter (fun s => s ≠ ""))

/-- One fetched source: the dictionary returned by
`FetchingData.scrape_website` together with the URL it was fetched from. -/
structure RawSourceItem where
  url : String
  title : String
  paragraphs : List String
  images : List String
  author : String
deriving DecidableEq

/-- The Content Pool: the mutable state of `ArticleRepository`. -/
structure Pool where
  imgs : List String
  descriptions : List String
  titles : List String
  sources : List String
  authors : List String
  min_content_threshold : Nat
deriving DecidableEq

/-- The pool produced by `ArticleRepository.__init__` from initial data. -/
def init_pool (initial_titles initial_imgs initial_descriptions
    initial_sources initial_authors : List String)
    (min_content_threshold : Nat) : Pool :=
  { imgs := clean_list initial_imgs
    descriptions := clean_list initial_descriptions
    titles := clean_list initial_titles
    sources := clean_list initial_sources
    authors := clean_authors initial_authors
    min_content_threshold := min_content_threshold }

/-- The empty pool with the default threshold 5. -/
def empty_pool : Pool := init_pool [] [] [] [] [] 5

/-- Embeds the success path of `ArticleRepository.get_article`
(article_repository.py lines 90-131), with the scraped article as input
(the fetch itself is an external collaborator): clean the item's own lists,
then extend the pool lists without any deduplication against existing pool
contents. -/
def get_article (pool : Pool) (item : RawSourceItem) : Pool :=
  let images := clean_list item.images
  let paragraphs := clean_list item.paragraphs
  let title := py_strip item.title
  let author := (clean_authors [item.author]).headD ""
  { pool with
    imgs := pool.imgs ++ images
    descriptions :=
      if paragraphs ≠ [] then pool.descriptions ++ paragraphs
      else pool.descriptions
    titles := if title ≠ "" then pool.titles ++ [title] else pool.titles
    sources := pool.sources ++ [item.url]
    authors := if author ≠ "" then pool.authors ++ [author] else pool.authors }

/-- The domain normalization named by the spec ("strips a leading www."):
the netloc with a leading `www.` removed. -/
def normalized_domain (s : String) : String :=
  let n := netloc s
  if starts_with ("www.") n then drop_chars 4 n else n

/-- Embeds the link-gathering loop of `google_search_article_links`
(google_search_article_links.py lines 38-58 and 72-91): walk the search
results, stop once `num_results` links are kept, skip links whose exact
netloc is already seen or whose page has no date, and record kept netlocs.
`has_date` models the external `get_page_date` collaborator (an exception
skips the link, like a missing date). -/
def gather_links (has_date : String → Bool) (num_results : Nat) :
    List String → List String → List String → List String × List String
  | [], links, seen => (links, seen)
  | l :: rest, links, seen =>
    if num_results ≤ links.length then (links, seen)
    else if netloc l ∈ seen then gather_links has_date num_results rest links seen
    else if has_date l then
      gather_links has_date num_results rest (links ++ [l]) (netloc l :: seen)
    else gather_links has_date num_results rest links seen

/-- Embeds `google_search_article_links` (google_search_article_links.py
lines 8-99) with the two external searches as inputs: seed the seen set
with the netlocs of `existing_links`, gather from the first result list,
and if short of `num_results` gather more from the refinement result
list. -/
def google_search_article_links (has_date : String → Bool)
    (results₁ results₂ : List String) (num_results : Nat)
    (existing_links : List String) : List String :=
  if (gather_links has_date num_results results₁ []
      (existing_links.map netloc)).1.length < num_results then
    (gather_links has_date num_results results₂
      (gather_links has_date num_results results₁ []
        (existing_links.map netloc)).1
      (gather_links has_date num_results results₁ []
        (existing_links.map netloc)).2).1
  else
    (gather_links has_date num_results results₁ []
      (existing_links.map netloc)).1

/-- Embeds the URL-gathering loop of `ArticleRepository._ensure_content`
(article_repository.py lines 150-163): for each search title extend the
accumulated URLs with one search call, breaking as soon as the number
needed is reached.  `search` models the collaborator
`google_search_article_links(title, num_results, existing_links)`. -/
def gather_urls (search : String → Nat → List String → List String)
    (sources : List String) (need : Nat) :
    List String → List String → List String
  | [], acc => acc
  | t :: ts, acc =>
    let acc₂ := acc ++ search t need sources
    if need ≤ acc₂.length then acc₂ else gather_urls search sources need ts acc₂

/-- Embeds the scraping loop of `ArticleRepository._ensure_content`
(lines 166-167): `fetch` models `FetchingData.scrape_website`; a failed
fetch (`none`) leaves the pool unchanged, as `get_article` catches the
exception and returns `False`. -/
def scrape_all (fetch : String → Option RawSourceItem) :
    Pool → List String → Pool
  | pool, [] => pool
  | pool, u :: us =>
    match fetch u with
    | none => scrape_all fetch pool us
    | some it => scrape_all fetch (get_article pool { it with url := u }) us

/-- Embeds `ArticleRepository._ensure_content` (article_repository.py lines
133-169): when the given content list is below the threshold, gather more
URLs from the search collaborator (excluding current sources) and scrape
each; otherwise do nothing.  `content_len` is the length of the content
list being checked. -/
def ensure_content (search : String → Nat → List String → List String)
    (fetch : String → Option RawSourceItem) (pool : Pool)
    (content_len : Nat) : Pool :=
  if content_len < pool.min_content_threshold then
    let search_titles := if pool.titles ≠ [] then pool.titles
      else ["current events"]
    let need := pool.min_content_threshold - content_len
    let additional_urls := gather_urls search pool.sources need search_titles []
    scrape_all fetch pool additional_urls
  else pool

/-! Consensus image selector (`images/image_selector.py`). -/

/-- Modelled from the spec: `ImageTextComparator.compare_images` is imported
by `image_selector.py` but its definition is missing from src/.  Per spec
section 4.3 it computes, for every (image, text) pair, a boolean match and
returns the matching images of one text; modelled as a filter by an
abstract per-pair match collaborator. -/
def compare_images (mtch : String → String → Bool)
    (imgs : List String) (txt : String) : List String :=
  imgs.filter (fun im => mtch im txt)

/-- Embeds the matched-image accumulation loop of
`ImageSelector.image_selector` (image_selector.py lines 24-32): the
concatenation of `compare_images` over every target text. -/
def all_matched_imgs (mtch : String → String → Bool)
    (imgs : List String) (txts : List String) : List String :=
  (txts.map (compare_images mtch imgs)).flatten

/-- Embeds the adaptive quorum of `ImageSelector.image_selector`
(image_selector.py line 41): `max(1, len(txt_list) - 1)`. -/
def quorum_threshold (txts : List String) : Nat :=
  max 1 (txts.length - 1)

/-- The number of target texts that match a given image. -/
def match_count (mtch : String → String → Bool)
    (txts : List String) (im : String) : Nat :=
  (txts.filter (fun t => mtch im t)).length

/-- Embeds the quorum filter of `ImageSelector.image_selector`
(image_selector.py lines 35-46): count occurrences over the accumulated
matched images (`Counter` keys are in first-insertion order) and keep the images
whose count reaches the threshold. -/
def filtered_imgs (mtch : String → String → Bool)
    (imgs : List String) (txts : List String) : List String :=
  let allm := all_matched_imgs mtch imgs txts
  (dedup_first allm).filter (fun im => quorum_threshold txts ≤ allm.count im)

/-! Relevance selector (`text/text_selector.py`), kmeans threshold mode. -/

/-- Arithmetic mean of a list of rationals (division by zero yields 0 for
the empty list). -/
def list_mean (l : List ℚ) : ℚ := l.sum / (l.length : ℚ)

/-- Within-cluster sum of squared deviations from the cluster mean. -/
def wcss (l : List ℚ) : ℚ :=
  (l.map (fun x => (x - list_mean l) ^ 2)).sum

/-- All contiguous two-cluster splits of a list: cut points 1 .. length-1. -/
def splits_at (l : List ℚ) : List (List ℚ × List ℚ) :=
  (List.range (l.length - 1)).map (fun k => (l.take (k + 1), l.drop (k + 1)))

/-- Modelled from the spec: `sklearn.cluster.KMeans(n_clusters=2)` is an
external collaborator (text_selector.py lines 166-171 call it).  For
one-dimensional data its converged solution is a contiguous split of the
sorted scores; modelled as the split minimizing the within-cluster sum of
squares, returned as (lower cluster, upper cluster). -/
def kmeans2 (l : List ℚ) : List ℚ × List ℚ :=
  (splits_at (List.insertionSort (fun a b : ℚ => a ≤ b) l)).foldl
    (fun best c =>
      if wcss c.1 + wcss c.2 < wcss best.1 + wcss best.2 then c else best)
    ((splits_at (List.insertionSort (fun a b : ℚ => a ≤ b) l)).headD ([], []))

/-- Embeds the kmeans branch of `TextSelector._calculate_threshold`
(text_selector.py lines 166-171): the mean of the two cluster centers,
each center being the mean of its cluster. -/
def kmeans_threshold (l : List ℚ) : ℚ :=
  (list_mean (kmeans2 l).1 + list_mean (kmeans2 l).2) / 2

/-- Embeds `TextSelector._calculate_threshold` in kmeans mode including its
empty-input guard (text_selector.py lines 163-171): 0 for no scores, else
the kmeans threshold. -/
def calculate_threshold_kmeans (sims : List ℚ) : ℚ :=
  if sims.length = 0 then 0 else kmeans_threshold sims

/-- Embeds `TextSelector.select_relevant_text` (text_selector.py lines
185-235) after sentence splitting and scoring, in kmeans threshold mode:
keep the (sentence, score) pairs scoring strictly above the threshold and
sort them by descending score (Python's stable sort, embedded as insertion
sort with the ≥-on-score relation). -/
def select_relevant_text (sentences : List String) (sims : List ℚ) :
    List (String × ℚ) :=
  List.insertionSort (fun a b : String × ℚ => b.2 ≤ a.2)
    ((sentences.zip sims).filter
      (fun p => calculate_threshold_kmeans sims < p.2))

/-! Extractive summarizer (`models/summarizers/ultra_efficient_summarizer.py`). -/

/-- A word consisting only of alphanumeric characters, as Python
`str.isalnum` (empty strings are not alnum). -/
def is_alnum_word (w : String) : Bool :=
  w ≠ "" ∧ w.data.all Char.isAlphanum

/-- Modelled from the spec: `nltk.tokenize.word_tokenize` is external NLTK
code; modelled as whitespace splitting, which agrees with it on
space-separated alphanumeric words. -/
def word_tokens (s : String) : List String :=
  ((s.data.splitOn ' ').map (fun cs => (⟨cs⟩ : String))).filter
    (fun w => w ≠ "")

/-- Embeds the token-set construction of
`UltraEfficientSummarizer.calculate_similarity_optimized`
(ultra_efficient_summarizer.py lines 170-179): lowercased alphanumeric
tokens not in the stop-word set, as a finset (Python `frozenset`).
`stop` models the external NLTK English stop-word list. -/
def token_set (stop : List String) (s : String) : Finset String :=
  (((word_tokens s).filter
    (fun w => is_alnum_word w ∧ to_lower w ∉ stop)).map to_lower).toFinset

/-- Embeds `UltraEfficientSummarizer.calculate_similarity_optimized`
(ultra_efficient_summarizer.py lines 162-192): 1 for identical sentences,
0 when either filtered token set is empty, else the Jaccard index of the
two token sets. -/
def calculate_similarity_optimized (stop : List String)
    (sent₁ sent₂ : String) : ℚ :=
  if sent₁ = sent₂ then 1
  else if token_set stop sent₁ = ∅ ∨ token_set stop sent₂ = ∅ then 0
  else ((token_set stop sent₁ ∩ token_set stop sent₂).card : ℚ) /
    ((token_set stop sent₁ ∪ token_set stop sent₂).card : ℚ)

/-- Python `range(start, stop, step)` for a positive step. -/
def py_range (start stop step : Nat) : List Nat :=
  if step = 0 then []
  else (List.range ((stop - start + step - 1) / step)).map
    (fun k => start + k * step)

/-- Embeds the batch enumeration of
`UltraEfficientSummarizer.process_sentence_batch`
(ultra_efficient_summarizer.py lines 120-160), including its index
recovery: for block origins `i` in `range(0, n, batch)` and `j` in
`range(i + batch, n, batch)`, the futures enumerate the true pairs
(i + idx / (batch_end_j - j), j + idx mod (batch_end_j - j)) row-major,
while the stored position is recovered as
(i + idx / batch, j + idx mod batch); an entry is produced only when the
similarity of the true pair is strictly above 0.1.  The result is the list
of (stored position, weight) assignments made to the sparse matrix (each
one is mirrored symmetrically in the source). -/
def process_sentence_batch (stop : List String) (sentences : List String)
    (batch_size : Nat) : List ((Nat × Nat) × ℚ) :=
  let n := sentences.length
  (py_range 0 n batch_size).map
    (fun i =>
      (py_range (i + batch_size) n batch_size).map
        (fun j =>
          let bei := min (i + batch_size) n
          let bej := min (j + batch_size) n
          let width := bej - j
          (List.range ((bei - i) * width)).filterMap
            (fun idx =>
              let sim := calculate_similarity_optimized stop
                (sentences.getD (i + idx / width) "")
                (sentences.getD (j + idx % width) "")
              if (1 : ℚ) / 10 < sim then
                some ((i + idx / batch_size, j + idx % batch_size), sim)
              else none)) |>.flatten) |>.flatten

/-- Embeds the extraction target count of `UltraEfficientSummarizer.summarize`
(ultra_efficient_summarizer.py line 226):
`max(min_length, int(total_sentences * ratio))`; Python `int` truncates,
which on nonnegative values is the floor. -/
def num_sentences_target (total : Nat) (ratio : ℚ) (min_length : Nat) : Nat :=
  max min_length (Int.toNat ⌊(total : ℚ) * ratio⌋)

/-- Embeds the ranking step of `UltraEfficientSummarizer.summarize`
(lines 227-231): sort the (index, score) pairs by descending score
(Python's stable sort) and take the target count. -/
def ranked_sentences (scores : List (Nat × ℚ)) (k : Nat) :
    List (Nat × ℚ) :=
  (List.insertionSort (fun a b : Nat × ℚ => b.2 ≤ a.2) scores).take k

/-- Lexicographic order on (index, score) pairs: Python's default tuple
comparison used by `sorted(ranked_sentences)`. -/
def pair_lex (a b : Nat × ℚ) : Prop :=
  a.1 < b.1 ∨ (a.1 = b.1 ∧ a.2 ≤ b.2)

instance : DecidableRel pair_lex := fun a b => by
  unfold pair_lex; infer_instance

/-- Python `" ".join(...)`: concatenate with single-space separators. -/
def join_spaces : List String → String
  | [] => ""
  | [s] => s
  | s :: rest => s ++ " " ++ join_spaces rest

/-- Embeds the joining step of `UltraEfficientSummarizer.summarize`
(lines 233-235): re-sort the extracted (index, score) pairs ascending
(Python `sorted` on tuples) and join the corresponding sentences with
spaces. -/
def extract_summary (sentences : List String) (scores : List (Nat × ℚ))
    (k : Nat) : String :=
  join_spaces
    ((List.insertionSort pair_lex (ranked_sentences scores k)).map
      (fun p => sentences.getD p.1 ""))

/-! Streaming tokenization (`preprocess_text_streaming`). -/

/-- Sentence-terminator characters tested by
`chunk.endswith((".", "!", "?"))`. -/
def is_term (c : Char) : Bool := c = '.' ∨ c = '!' ∨ c = '?'

/-- Accumulator-based splitter for `sent_tokenize_model`. -/
def sent_tokenize_go : List Char → List Char → List (List Char)
  | [], acc => if acc = [] then [] else [acc.reverse]
  | c :: rest, acc =>
    if is_term c then (c :: acc).reverse :: sent_tokenize_go rest []
    else sent_tokenize_go rest (c :: acc)

/-- Modelled from the spec: `nltk.tokenize.sent_tokenize` is external NLTK
code; modelled as splitting after each terminator character, with a
trailing unterminated fragment kept as a final sentence. -/
def sent_tokenize_model (cs : List Char) : List (List Char) :=
  sent_tokenize_go cs []

/-- Fixed-size chunking of the staged text, as the `range(0, file_size,
chunk_size)` read loop; fueled by the text length for structural
recursion. -/
def chunks_of_aux (sz : Nat) : Nat → List Char → List (List Char)
  | 0, _ => []
  | _, [] => []
  | fuel + 1, cs => cs.take sz :: chunks_of_aux sz fuel (cs.drop sz)

/-- All fixed-size windows of a text, in order. -/
def chunks_of (sz : Nat) (cs : List Char) : List (List Char) :=
  chunks_of_aux sz cs.length cs

/-- Embeds one iteration of
`UltraEfficientSummarizer.preprocess_text_streaming`
(ultra_efficient_summarizer.py lines 87-107): prefix the carried buffer,
tokenize, and when the window does not end with a terminator pop the last
sentence back into the buffer.  State is (buffer, emitted sentences). -/
def stream_step (st : List Char × List (List Char)) (chunk : List Char) :
    List Char × List (List Char) :=
  let chunk₂ := st.1 ++ chunk
  let ss := sent_tokenize_model chunk₂
  if is_term (chunk₂.getLastD 'x') then ([], st.2 ++ ss)
  else (ss.getLastD [], st.2 ++ ss.dropLast)

/-- Embeds `UltraEfficientSummarizer.preprocess_text_streaming`
(ultra_efficient_summarizer.py lines 73-111): fold the window step over
the fixed-size chunks and return the emitted sentences.  The buffer left
after the last window is not emitted, exactly as in the source. -/
def preprocess_text_streaming (sz : Nat) (cs : List Char) :
    List (List Char) :=
  ((chunks_of sz cs).foldl stream_step ([], [])).2

/-! Publish gate (`pipelines/new_pipeline.py` and `article_insert.py`). -/

/-- The canonical article record assembled by `Article_Insert.article_insert`
(article_insert.py lines 30-52), restricted to the fields the publish-gate
claims speak about. -/
structure CanonicalArticle where
  title : String
  description : String
  url : String
  images : List String
  sources : List String
  authors : List String
deriving DecidableEq

/-- Embeds the image-list finalization of `ArticleProcessor.process_article`
(new_pipeline.py lines 70-71): the selector output with the article's own
`urlToImage` prepended when non-empty. -/
def final_imgs (selector_out : List String) (url_to_image : String) :
    List String :=
  if url_to_image ≠ "" then url_to_image :: selector_out else selector_out

/-- Embeds the publish gate of `ArticleProcessor.process_article`
(new_pipeline.py lines 74-82): call `article_insert` (persist a record)
only when the final image list is non-empty; otherwise produce nothing. -/
def process_article_gate (title description url : String)
    (selector_out : List String) (url_to_image : String)
    (sources authors : List String) : Option CanonicalArticle :=
  let imgs := final_imgs selector_out url_to_image
  if imgs ≠ [] then
    some { title := title, description := description, url := url
           images := imgs, sources := sources, authors := authors }
  else none

/-! Concrete inputs used by witnesses and counterexamples. -/

/-- A concrete source item used to exercise the pool. -/
def c2_item : RawSourceItem :=
  { url := "u", title := "t", paragraphs := ["p"], images := ["i"],
    author := "a" }

/-- The pool after adding `c2_item` twice to the empty pool. -/
def c2_pool : Pool := get_article (get_article empty_pool c2_item) c2_item

/-- First same-domain source item. -/
def c3_item₁ : RawSourceItem :=
  { url := "http://a.com/1", title := "t1", paragraphs := [], images := [],
    author := "" }

/-- Second same-domain source item. -/
def c3_item₂ : RawSourceItem :=
  { url := "http://a.com/2", title := "t2", paragraphs := [], images := [],
    author := "" }

/-- The pool after adding two articles fetched from the same domain. -/
def c3_pool : Pool := get_article (get_article empty_pool c3_item₁) c3_item₂

/-- A concrete match collaborator for the quorum witness: image `imgA`
matches texts `t1` and `t2`; image `imgB` matches only `t1`. -/
def c1_match (im t : String) : Bool :=
  (im == "imgA" && t != "t3") || (im == "imgB" && t == "t1")

/-- Nine equal pagerank scores, enough sentences for the extraction-count
counterexample. -/
def c6_scores : List (Nat × ℚ) :=
  [(0, 1/2), (1, 1/2), (2, 1/2), (3, 1/2), (4, 1/2), (5, 1/2), (6, 1/2),
    (7, 1/2), (8, 1/2)]

/-- Five sentences for the order-preservation instance. -/
def c7_sentences : List String := ["s1", "s2", "s3", "s4", "s5"]

/-- Scores ranking sentence s3 (index 2) first and s1 (index 0) second. -/
def c7_scores : List (Nat × ℚ) :=
  [(0, 8/10), (1, 1/10), (2, 9/10), (3, 2/10), (4, 3/10)]

/-- Six candidate sentences for the adaptive-threshold instance. -/
def c4_sentences : List String := ["s1", "s2", "s3", "s4", "s5", "s6"]

/-- The spec's similarity scores [0.9, 0.85, 0.88, 0.1, 0.05, 0.12]. -/
def c4_sims : List ℚ := [9/10, 85/100, 88/100, 1/10, 5/100, 12/100]

/-! Order facts for the sorting relations used by the embedded sorts. -/

instance : IsTotal (Nat × ℚ) pair_lex :=
  ⟨fun a b => by
    simp only [pair_lex]
    rcases Nat.lt_trichotomy a.1 b.1 with h | h | h
    · exact Or.inl (Or.inl h)
    · rcases le_total a.2 b.2 with h₂ | h₂
      · exact Or.inl (Or.inr ⟨h, h₂⟩)
      · exact Or.inr (Or.inr ⟨h.symm, h₂⟩)
    · exact Or.inr (Or.inl h)⟩

instance : IsTrans (Nat × ℚ) pair_lex :=
  ⟨fun a b c hab hbc => by
    simp only [pair_lex] at hab hbc ⊢
    rcases hab with h₁ | ⟨e₁, l₁⟩
    · rcases hbc with h₂ | ⟨e₂, l₂⟩
      · exact Or.inl (lt_trans h₁ h₂)
      · exact Or.inl (e₂ ▸ h₁)
    · rcases hbc with h₂ | ⟨e₂, l₂⟩
      · exact Or.inl (e₁ ▸ h₂)
      · exact Or.inr ⟨e₁.trans e₂, le_trans l₁ l₂⟩⟩

instance : IsTotal (Nat × ℚ) (fun a b : Nat × ℚ => b.2 ≤ a.2) :=
  ⟨fun a b => le_total b.2 a.2⟩

instance : IsTrans (Nat × ℚ) (fun a b : Nat × ℚ => b.2 ≤ a.2) :=
  ⟨fun _ _ _ h₁ h₂ => le_trans h₂ h₁⟩

instance : IsTotal (String × ℚ) (fun a b : String × ℚ => b.2 ≤ a.2) :=
  ⟨fun a b => le_total b.2 a.2⟩

instance : IsTrans (String × ℚ) (fun a b : String × ℚ => b.2 ≤ a.2) :=
  ⟨fun _ _ _ h₁ h₂ => le_trans h₂ h₁⟩

end LP

namespace LP

/-! Shared lemmas about first-seen deduplication. -/

theorem mem_dedup_seen {α : Type} [DecidableEq α] {a : α} :
    ∀ (l seen : List α), a ∈ dedup_seen l seen ↔ a ∈ l ∧ a ∉ seen := by
  intro l
  induction l with
  | nil => intro seen; simp [dedup_seen]
  | cons x xs ih =>
    intro seen
    by_cases hx : x ∈ seen
    · rw [dedup_seen, if_pos hx, ih]
      simp only [List.mem_cons]
      constructor
      · exact fun h => ⟨Or.inr h.1, h.2⟩
      · rintro ⟨hax | hax, hs⟩
        · exact absurd (hax ▸ hx) hs
        · exact ⟨hax, hs⟩
    · rw [dedup_seen, if_neg hx]
      simp only [List.mem_cons, ih, List.mem_cons]
      constructor
      · rintro (rfl | ⟨hxs, hns⟩)
        · exact ⟨Or.inl rfl, hx⟩
        · exact ⟨Or.inr hxs, fun h => hns (Or.inr h)⟩
      · rintro ⟨rfl | hax, hs⟩
        · exact Or.inl rfl
        · by_cases hax₂ : a = x
          · exact Or.inl hax₂
          · exact Or.inr ⟨hax, fun h => h.elim hax₂ hs⟩

theorem nodup_dedup_seen {α : Type} [DecidableEq α] :
    ∀ (l seen : List α), (dedup_seen l seen).Nodup := by
  intro l
  induction l with
  | nil => intro seen; simp [dedup_seen]
  | cons x xs ih =>
    intro seen
    by_cases hx : x ∈ seen
    · rw [dedup_seen, if_pos hx]; exact ih seen
    · rw [dedup_seen, if_neg hx]
      refine List.Nodup.cons ?_ (ih (x :: seen))
      intro hmem
      exact ((mem_dedup_seen xs (x :: seen)).mp hmem).2 (List.mem_cons_self x seen)

theorem mem_dedup_first {α : Type} [DecidableEq α] {a : α} (l : List α) :
    a ∈ dedup_first l ↔ a ∈ l := by
  rw [dedup_first, mem_dedup_seen]
  simp

theorem count_dedup_first {α : Type} [DecidableEq α] {a : α} {l : List α}
    (h : a ∈ dedup_first l) : (dedup_first l).count a = 1 :=
  List.count_eq_one_of_mem (nodup_dedup_seen l []) h

theorem count_clean_list_self {s : String} {l : List String}
    (h : s ∈ clean_list l) : (clean_list l).count s = 1 :=
  count_dedup_first h

theorem nodup_clean_list (l : List String) : (clean_list l).Nodup :=
  nodup_dedup_seen _ []

/-! Projection lemmas for `get_article` and the empty pool. -/

theorem get_article_imgs (pool : Pool) (it : RawSourceItem) :
    (get_article pool it).imgs = pool.imgs ++ clean_list it.images := rfl

theorem get_article_descriptions (pool : Pool) (it : RawSourceItem) :
    (get_article pool it).descriptions =
      if clean_list it.paragraphs ≠ [] then
        pool.descriptions ++ clean_list it.paragraphs
      else pool.descriptions := rfl

theorem get_article_titles (pool : Pool) (it : RawSourceItem) :
    (get_article pool it).titles =
      if py_strip it.title ≠ "" then pool.titles ++ [py_strip it.title]
      else pool.titles := rfl

theorem get_article_sources (pool : Pool) (it : RawSourceItem) :
    (get_article pool it).sources = pool.sources ++ [it.url] := rfl

theorem get_article_authors (pool : Pool) (it : RawSourceItem) :
    (get_article pool it).authors =
      if (clean_authors [it.author]).headD "" ≠ "" then
        pool.authors ++ [(clean_authors [it.author]).headD ""]
      else pool.authors := rfl

theorem empty_pool_imgs : empty_pool.imgs = [] := rfl

theorem empty_pool_descriptions : empty_pool.descriptions = [] := rfl

theorem empty_pool_titles : empty_pool.titles = [] := rfl

theorem empty_pool_sources : empty_pool.sources = [] := rfl

theorem empty_pool_authors : empty_pool.authors = [] := rfl

/-- C2 helper: an element occurring once in `l` occurs twice in `l ++ l`
prefixed by nothing. -/
theorem count_doubled {s : String} {l : List String} (hs : s ∈ l)
    (hn : l.Nodup) : (([] ++ l) ++ l).count s = 2 := by
  rw [List.nil_append, List.count_append, List.count_eq_one_of_mem hn hs]

/-! Claim C2: pool add/merge idempotence. -/

/-- Claim C2 is false on the code: adding the same `RawSourceItem` twice
leaves every pool field with TWO occurrences of each of that item's
entries, not one — `get_article` extends the pool lists without checking
existing pool contents. -/
theorem c2_add_twice_duplicates_every_field :
    c2_pool.imgs.count "i" = 2 ∧ c2_pool.descriptions.count "p" = 2 ∧
    c2_pool.titles.count "t" = 2 ∧ c2_pool.sources.count "u" = 2 ∧
    c2_pool.authors.count "a" = 2 := by
  decide

/-- Claim C2 amended: adding the same `RawSourceItem` twice to the empty
pool leaves every field with exactly two occurrences of each of the item's
cleaned entries — deduplication (trimmed, case-sensitive) applies only
within a single item's lists, never against pool contents. -/
theorem c2_amended_add_twice_doubles_fields (it : RawSourceItem) :
    (∀ s ∈ clean_list it.images,
      (get_article (get_article empty_pool it) it).imgs.count s = 2) ∧
    (∀ s ∈ clean_list it.paragraphs,
      (get_article (get_article empty_pool it) it).descriptions.count s = 2) ∧
    (py_strip it.title ≠ "" →
      (get_article (get_article empty_pool it) it).titles.count
        (py_strip it.title) = 2) ∧
    (get_article (get_article empty_pool it) it).sources.count it.url = 2 ∧
    ((clean_authors [it.author]).headD "" ≠ "" →
      (get_article (get_article empty_pool it) it).authors.count
        ((clean_authors [it.author]).headD "") = 2) := by
  refine ⟨?_, ?_, ?_, ?_, ?_⟩
  · intro s hs
    rw [get_article_imgs, get_article_imgs, empty_pool_imgs]
    exact count_doubled hs (nodup_clean_list it.images)
  · intro s hs
    have hne : clean_list it.paragraphs ≠ [] := List.ne_nil_of_mem hs
    rw [get_article_descriptions, get_article_descriptions, if_pos hne,
      if_pos hne, empty_pool_descriptions]
    exact count_doubled hs (nodup_clean_list it.paragraphs)
  · intro hne
    rw [get_article_titles, get_article_titles, if_pos hne, if_pos hne,
      empty_pool_titles]
    exact count_doubled (List.mem_singleton_self _) (List.nodup_singleton _)
  · rw [get_article_sources, get_article_sources, empty_pool_sources]
    exact count_doubled (List.mem_singleton_self _) (List.nodup_singleton _)
  · intro hne
    rw [get_article_authors, get_article_authors, if_pos hne, if_pos hne,
      empty_pool_authors]
    exact count_doubled (List.mem_singleton_self _) (List.nodup_singleton _)

/-- Witness for the amended C2 at the concrete item. -/
theorem c2_amended_witness :
    ("i" ∈ clean_list c2_item.images ∧
      (get_article (get_article empty_pool c2_item) c2_item).imgs.count "i"
        = 2) ∧
    (get_article (get_article empty_pool c2_item) c2_item).sources.count
      c2_item.url = 2 :=
  ⟨⟨by decide,
      (c2_amended_add_twice_doubles_fields c2_item).1 "i" (by decide)⟩,
    (c2_amended_add_twice_doubles_fields c2_item).2.2.2.1⟩

/-! Claim C3: domain diversity. -/

/-- Loop invariant of the link-gathering loop: kept links always have
pairwise distinct netlocs, every kept netloc is recorded in the seen set,
the seen set only grows, and every newly kept link had an unseen netloc. -/
theorem gather_links_invariant (has_date : String → Bool) (num : Nat) :
    ∀ (res links seen : List String),
      (links.map netloc).Nodup → (∀ l ∈ links, netloc l ∈ seen) →
      ((gather_links has_date num res links seen).1.map netloc).Nodup ∧
        (∀ l ∈ (gather_links has_date num res links seen).1,
          netloc l ∈ (gather_links has_date num res links seen).2) ∧
        (∀ x ∈ seen, x ∈ (gather_links has_date num res links seen).2) ∧
        (∀ l ∈ (gather_links has_date num res links seen).1,
          l ∈ links ∨ netloc l ∉ seen) := by
  intro res
  induction res with
  | nil =>
    intro links seen h1 h2
    exact ⟨h1, h2, fun x hx => hx, fun l hl => Or.inl hl⟩
  | cons r rest ih =>
    intro links seen h1 h2
    rw [gather_links]
    by_cases hfull : num ≤ links.length
    · rw [if_pos hfull]
      exact ⟨h1, h2, fun x hx => hx, fun l hl => Or.inl hl⟩
    · rw [if_neg hfull]
      by_cases hseen : netloc r ∈ seen
      · rw [if_pos hseen]
        exact ih links seen h1 h2
      · rw [if_neg hseen]
        by_cases hdate : has_date r
        · rw [if_pos hdate]
          have h1n : ((links ++ [r]).map netloc).Nodup := by
            rw [List.map_append, List.nodup_append]
            refine ⟨h1, List.nodup_singleton _, ?_⟩
            intro x hx hx₂
            rw [List.mem_map] at hx
            obtain ⟨l, hl, rfl⟩ := hx
            rw [List.mem_map] at hx₂
            obtain ⟨l₂, hl₂, he⟩ := hx₂
            rw [List.mem_singleton] at hl₂
            subst hl₂
            exact hseen (he ▸ h2 l hl)
          have h2n : ∀ l ∈ links ++ [r], netloc l ∈ netloc r :: seen := by
            intro l hl
            rcases List.mem_append.mp hl with hl | hl
            · exact List.mem_cons_of_mem _ (h2 l hl)
            · rw [List.mem_singleton] at hl
              subst hl
              exact List.mem_cons_self _ _
          obtain ⟨g1, g2, g3, g4⟩ := ih (links ++ [r]) (netloc r :: seen) h1n h2n
          refine ⟨g1, g2, fun x hx => g3 x (List.mem_cons_of_mem _ hx), ?_⟩
          intro l hl
          rcases g4 l hl with hmem | hnew
          · rcases List.mem_append.mp hmem with hmem | hmem
            · exact Or.inl hmem
            · rw [List.mem_singleton] at hmem
              subst hmem
              exact Or.inr hseen
          · exact Or.inr fun hc => hnew (List.mem_cons_of_mem _ hc)
        · rw [if_neg hdate]
          exact ih links seen h1 h2

/-- Claim C3 amended: domain-diversity filtering happens only inside one
`google_search_article_links` call — its returned links have pairwise
distinct exact netlocs (no www-stripping), none belonging to the existing
links present at call time.  The pool itself never enforces this. -/
theorem c3_amended_search_call_domain_diversity (has_date : String → Bool)
    (results₁ results₂ : List String) (num : Nat)
    (existing : List String) :
    ((google_search_article_links has_date results₁ results₂ num
        existing).map netloc).Nodup ∧
    ∀ l ∈ google_search_article_links has_date results₁ results₂ num
        existing, netloc l ∉ existing.map netloc := by
  obtain ⟨b1, b2, b3, b4⟩ := gather_links_invariant has_date num results₁ []
    (existing.map netloc) (by simp) (by simp)
  rw [google_search_article_links]
  by_cases hlen : (gather_links has_date num results₁ []
      (existing.map netloc)).1.length < num
  · rw [if_pos hlen]
    obtain ⟨g1, g2, g3, g4⟩ := gather_links_invariant has_date num results₂
      (gather_links has_date num results₁ [] (existing.map netloc)).1
      (gather_links has_date num results₁ [] (existing.map netloc)).2 b1 b2
    refine ⟨g1, ?_⟩
    intro l hl
    rcases g4 l hl with hmem | hnew
    · rcases b4 l hmem with hnil | hnew₁
      · exact absurd hnil (List.not_mem_nil l)
      · exact hnew₁
    · exact fun hc => hnew (b3 _ hc)
  · rw [if_neg hlen]
    refine ⟨b1, ?_⟩
    intro l hl
    rcases b4 l hl with hnil | hnew
    · exact absurd hnil (List.not_mem_nil l)
    · exact hnew

/-- Claim C3 is false on the code as stated: the pool built by two adds
from the same domain (and left untouched by a completed backfill loop)
holds two distinct sources with equal normalized domains —
`get_article` appends every fetched URL to `sources` without any domain
check. -/
theorem c3_pool_keeps_duplicate_domains :
    (ensure_content (fun _ _ _ => []) (fun _ => none) c3_pool
        c3_pool.sources.length).sources =
      ["http://a.com/1", "http://a.com/2"] ∧
    normalized_domain "http://a.com/1" = normalized_domain "http://a.com/2" ∧
    ("http://a.com/1" : String) ≠ "http://a.com/2" := by
  refine ⟨?_, by decide, by decide⟩
  decide

/-! Claim C1: consensus image quorum. -/

theorem count_filter_nodup (p : String → Bool) {imgs : List String}
    (him : imgs.Nodup) (im : String) :
    (imgs.filter p).count im = if im ∈ imgs ∧ p im then 1 else 0 := by
  by_cases hp : p im
  · rw [List.count_filter hp]
    by_cases hm : im ∈ imgs
    · rw [List.count_eq_one_of_mem him hm, if_pos ⟨hm, hp⟩]
    · rw [List.count_eq_zero_of_not_mem hm, if_neg (fun h => hm h.1)]
  · have hnm : im ∉ imgs.filter p := fun h => hp (List.of_mem_filter h)
    rw [List.count_eq_zero_of_not_mem hnm, if_neg (fun h => hp h.2)]

theorem match_count_cons (mtch : String → String → Bool) (t : String)
    (ts : List String) (im : String) :
    match_count mtch (t :: ts) im =
      (if mtch im t then 1 else 0) + match_count mtch ts im := by
  by_cases hmt : mtch im t <;>
    simp [match_count, List.filter_cons, hmt, Nat.add_comm]

theorem count_all_matched (mtch : String → String → Bool)
    {imgs : List String} (him : imgs.Nodup) (txts : List String)
    (im : String) :
    (all_matched_imgs mtch imgs txts).count im =
      if im ∈ imgs then match_count mtch txts im else 0 := by
  induction txts with
  | nil => simp [all_matched_imgs, match_count]
  | cons t ts ih =>
    have hsplit : all_matched_imgs mtch imgs (t :: ts) =
        compare_images mtch imgs t ++ all_matched_imgs mtch imgs ts := by
      simp [all_matched_imgs]
    rw [hsplit, List.count_append, ih, compare_images,
      count_filter_nodup _ him im, match_count_cons]
    by_cases hm : im ∈ imgs
    · by_cases hmt : mtch im t <;> simp [hm, hmt]
    · simp [hm]

/-- Claim C1: the quorum filter of the consensus image selector retains an
image exactly when the number of target texts it matches reaches
`max 1 (len(texts) - 1)` — at least `len(texts) - 1`, floored at 1. -/
theorem c1_consensus_quorum_retention (mtch : String → String → Bool)
    (imgs txts : List String) (im : String) (him : imgs.Nodup)
    (ht : txts ≠ []) :
    im ∈ filtered_imgs mtch imgs txts ↔
      im ∈ imgs ∧ quorum_threshold txts ≤ match_count mtch txts im := by
  have hcount := count_all_matched mtch him txts im
  simp only [filtered_imgs]
  rw [List.mem_filter, mem_dedup_first, decide_eq_true_eq]
  constructor
  · rintro ⟨hmem, hq⟩
    by_cases hm : im ∈ imgs
    · exact ⟨hm, by rwa [hcount, if_pos hm] at hq⟩
    · exfalso
      have : 0 < (all_matched_imgs mtch imgs txts).count im :=
        List.count_pos_iff.mpr hmem
      rw [hcount, if_neg hm] at this
      exact Nat.lt_irrefl 0 this
  · rintro ⟨hm, hq⟩
    have hone : 1 ≤ quorum_threshold txts := le_max_left 1 _
    refine ⟨?_, by rw [hcount, if_pos hm]; exact hq⟩
    apply List.count_pos_iff.mp
    rw [hcount, if_pos hm]
    omega

/-- Witness for C1: three target texts, an image matching two of them is
retained and an image matching only one is dropped. -/
theorem c1_consensus_quorum_witness :
    "imgA" ∈ filtered_imgs c1_match ["imgA", "imgB"] ["t1", "t2", "t3"] ∧
    "imgB" ∉ filtered_imgs c1_match ["imgA", "imgB"] ["t1", "t2", "t3"] :=
  ⟨(c1_consensus_quorum_retention c1_match ["imgA", "imgB"]
      ["t1", "t2", "t3"] "imgA" (by decide) (by decide)).mpr (by decide),
    fun h => absurd ((c1_consensus_quorum_retention c1_match
      ["imgA", "imgB"] ["t1", "t2", "t3"] "imgB" (by decide)
      (by decide)).mp h) (by decide)⟩

/-! Claim C9: the publish gate. -/

/-- Claim C9: with an empty final image list the article gate signals
discard — `article_insert` is never reached — and every record it does
produce has a non-empty image list. -/
theorem c9_publish_gate_discards_empty_images
    (title description url url_to_image : String)
    (selector_out sources authors : List String) :
    (final_imgs selector_out url_to_image = [] →
      process_article_gate title description url selector_out url_to_image
        sources authors = none) ∧
    (∀ rec, process_article_gate title description url selector_out
        url_to_image sources authors = some rec → rec.images ≠ []) := by
  constructor
  · intro h
    simp [process_article_gate, h]
  · intro rec hrec
    by_cases h : final_imgs selector_out url_to_image = []
    · simp [process_article_gate, h] at hrec
    · simp only [process_article_gate] at hrec
      rw [if_pos h, Option.some.injEq] at hrec
      rw [← hrec]
      exact h

/-- Witness for C9 at a concrete empty selection. -/
theorem c9_publish_gate_witness :
    process_article_gate "t" "d" "u" [] "" [] [] = none :=
  (c9_publish_gate_discards_empty_images "t" "d" "u" "" [] [] []).1 (by decide)

/-! Claim C4: adaptive kmeans threshold selection. -/

set_option maxHeartbeats 2000000 in
/-- Claim C4: in kmeans mode with at least two scores the relevance
selector keeps exactly the sentences scoring strictly above the mean of
the two cluster centers, sorted by descending score, and on the spec's
scores [0.9, 0.85, 0.88, 0.1, 0.05, 0.12] the two clusters are the low and
high triples and the selection is exactly the high cluster. -/
theorem c4_kmeans_threshold_selection :
    (∀ (sentences : List String) (sims : List ℚ), 2 ≤ sims.length →
      ((∀ p : String × ℚ, p ∈ select_relevant_text sentences sims ↔
          (p ∈ sentences.zip sims ∧ kmeans_threshold sims < p.2)) ∧
        (select_relevant_text sentences sims).Sorted
          (fun a b : String × ℚ => b.2 ≤ a.2))) ∧
    kmeans2 c4_sims = ([1/20, 1/10, 3/25], [17/20, 22/25, 9/10]) ∧
    select_relevant_text c4_sentences c4_sims =
      [("s1", 9/10), ("s3", 22/25), ("s2", 17/20)] := by
  have hsorted : List.insertionSort (fun a b : ℚ => a ≤ b) c4_sims
      = [1/20, 1/10, 3/25, 17/20, 22/25, 9/10] := by
    norm_num [c4_sims, List.insertionSort, List.orderedInsert]
  have hsplits : splits_at [1/20, 1/10, 3/25, 17/20, 22/25, 9/10] =
      [([1/20], [1/10, 3/25, 17/20, 22/25, 9/10]),
        ([1/20, 1/10], [3/25, 17/20, 22/25, 9/10]),
        ([1/20, 1/10, 3/25], [17/20, 22/25, 9/10]),
        ([1/20, 1/10, 3/25, 17/20], [22/25, 9/10]),
        ([1/20, 1/10, 3/25, 17/20, 22/25], [9/10])] := rfl
  have hkm : kmeans2 c4_sims = ([1/20, 1/10, 3/25], [17/20, 22/25, 9/10]) := by
    rw [kmeans2, hsorted, hsplits]
    norm_num [List.foldl, List.headD, wcss, list_mean]
  have hthr : calculate_threshold_kmeans c4_sims = 29/60 := by
    rw [calculate_threshold_kmeans, if_neg (by decide), kmeans_threshold, hkm]
    norm_num [list_mean]
  have hsel : select_relevant_text c4_sentences c4_sims =
      [("s1", 9/10), ("s3", 22/25), ("s2", 17/20)] := by
    rw [select_relevant_text]
    simp only [hthr]
    norm_num [c4_sentences, c4_sims, List.zip, List.zipWith, List.filter,
      List.insertionSort, List.orderedInsert, decide_eq_true_eq]
  refine ⟨?_, hkm, hsel⟩
  intro sentences sims hlen
  have hne : ¬(sims.length = 0) := by omega
  constructor
  · intro p
    simp only [select_relevant_text, List.mem_insertionSort,
      List.mem_filter, decide_eq_true_eq, calculate_threshold_kmeans]
    rw [if_neg hne]
  · rw [select_relevant_text]
    exact List.sorted_insertionSort _ _

/-- Witness for C4's general component at the spec's concrete scores. -/
theorem c4_kmeans_threshold_witness :
    (select_relevant_text c4_sentences c4_sims).Sorted
      (fun a b : String × ℚ => b.2 ≤ a.2) :=
  ((c4_kmeans_threshold_selection.1 c4_sentences c4_sims (by decide))).2

/-! Claim C5: similarity-graph construction. -/

/-- Claim C5 fails on the code: for any two distinct sentences with
Jaccard index 1/3 (well above the 0.1 cutoff) the batch loop inserts no
edge at all when the sentence count is below the batch size, because the
inner loop `range(i + batch_size, n, batch_size)` skips every pair lying
in the same batch block. -/
theorem c5_same_block_pairs_never_inserted :
    (∀ stop : List String,
      process_sentence_batch stop ["alpha beta", "alpha gamma"] 1000 = []) ∧
    calculate_similarity_optimized [] "alpha beta" "alpha gamma" = 1 / 3 ∧
    (1 : ℚ) / 10 ≤ 1 / 3 ∧
    ("alpha beta" : String) ≠ "alpha gamma" := by
  refine ⟨fun stop => rfl, ?_, by norm_num, by decide⟩
  have hne : ("alpha beta" : String) ≠ "alpha gamma" := by decide
  have hes : ¬(token_set [] "alpha beta" = ∅ ∨
      token_set [] "alpha gamma" = ∅) := by decide
  have hint : (token_set [] "alpha beta" ∩ token_set [] "alpha gamma").card
      = 1 := by decide
  have huni : (token_set [] "alpha beta" ∪ token_set [] "alpha gamma").card
      = 3 := by decide
  rw [calculate_similarity_optimized, if_neg hne, if_neg hes, hint, huni]
  norm_num

/-! Claim C8: streaming tokenization. -/

/-- Claim C8 fails on the code: on the 7-byte text `Hi. Bye` (one 1 MB
window) whole-text tokenization yields two sentences, while the streaming
loop emits only the first — the final unterminated sentence is parked in
the carry buffer, which is never flushed after the last window. -/
theorem c8_final_unterminated_sentence_lost :
    preprocess_text_streaming 1048576 ("Hi. Bye".data) = [("Hi.".data)] ∧
    sent_tokenize_model ("Hi. Bye".data) =
      [("Hi.".data), (" Bye".data)] := by
  constructor
  · decide
  · decide

/-! Claim C6: extraction target count. -/

/-- Claim C6 fails on the code at 9 sentences, ratio 0.3, min_length 2:
the code extracts `max(2, int(2.7)) = 2` sentences while the claimed
`max(2, round(2.7))` is 3. -/
theorem c6_extract_count_truncates_not_rounds :
    num_sentences_target 9 (3 / 10) 2 = 2 ∧
    max 2 (Int.toNat (round ((9 : ℚ) * (3 / 10)))) = 3 ∧
    (ranked_sentences c6_scores (num_sentences_target 9 (3 / 10) 2)).length
      = 2 := by
  have h₉ : ((9 : Nat) : ℚ) * (3 / 10) = 27 / 10 := by norm_num
  have hfl : ⌊((9 : Nat) : ℚ) * (3 / 10)⌋ = 2 := by
    rw [h₉]
    exact Int.floor_eq_iff.mpr ⟨by norm_num, by norm_num⟩
  have hrd : round ((9 : ℚ) * (3 / 10)) = 3 := by
    rw [show (9 : ℚ) * (3 / 10) = 27 / 10 by norm_num, round_eq]
    exact Int.floor_eq_iff.mpr ⟨by norm_num, by norm_num⟩
  have htgt : num_sentences_target 9 (3 / 10) 2 = 2 := by
    rw [num_sentences_target, hfl]
    rfl
  refine ⟨htgt, by rw [hrd]; rfl, ?_⟩
  rw [ranked_sentences, List.length_take, List.length_insertionSort, htgt]
  rfl

/-- Claim C6 amended: whenever the summarizer does not short-circuit
(min_length < total) and 0 ≤ ratio ≤ 1, the number of sentences selected
in the extract stage equals `max(min_length, floor(total * ratio))` —
Python `int()` truncates instead of rounding to nearest. -/
theorem c6_amended_extract_count_floor (scores : List (Nat × ℚ))
    (n min_length : Nat) (ratio : ℚ) (h₁ : min_length < n)
    (h₂ : scores.length = n) (h₃ : 0 ≤ ratio) (h₄ : ratio ≤ 1) :
    (ranked_sentences scores
        (num_sentences_target n ratio min_length)).length
      = num_sentences_target n ratio min_length ∧
    num_sentences_target n ratio min_length
      = max min_length (Int.toNat ⌊(n : ℚ) * ratio⌋) := by
  refine ⟨?_, rfl⟩
  rw [ranked_sentences, List.length_take, List.length_insertionSort, h₂]
  have hmul : (n : ℚ) * ratio ≤ (n : ℚ) :=
    calc (n : ℚ) * ratio ≤ (n : ℚ) * 1 :=
          mul_le_mul_of_nonneg_left h₄ (by positivity)
      _ = (n : ℚ) := mul_one _
  have hfloor : ⌊(n : ℚ) * ratio⌋ ≤ (n : ℤ) := by
    have := Int.floor_le_floor hmul
    rwa [Int.floor_natCast] at this
  have hk : num_sentences_target n ratio min_length ≤ n := by
    rw [num_sentences_target]
    exact max_le (le_of_lt h₁) (Int.toNat_le.mpr hfloor)
  exact Nat.min_eq_left hk

/-- Witness for the amended C6 at 9 sentences, ratio 0.3, min_length 2. -/
theorem c6_amended_witness :
    (ranked_sentences c6_scores (num_sentences_target 9 (3 / 10) 2)).length
      = num_sentences_target 9 (3 / 10) 2 :=
  (c6_amended_extract_count_floor c6_scores 9 2 (3 / 10) (by decide)
    (by decide) (by norm_num) (by norm_num)).1

/-! Claim C7: extraction preserves document order. -/

/-- Claim C7: the extracted sentences are re-sorted into ascending original
index order before joining, whatever their rank order; in particular the
5-sentence input whose top-two ranks are s3 then s1 joins to `s1 s3`. -/
theorem c7_extract_preserves_document_order :
    (∀ (scores : List (Nat × ℚ)) (k : Nat),
      ((List.insertionSort pair_lex (ranked_sentences scores k)).map
        Prod.fst).Sorted (· ≤ ·)) ∧
    ranked_sentences c7_scores 2 = [(2, 9/10), (0, 8/10)] ∧
    extract_summary c7_sentences c7_scores 2 = "s1 s3" := by
  have hrank : ranked_sentences c7_scores 2 = [(2, 9/10), (0, 8/10)] := by
    norm_num [ranked_sentences, c7_scores, List.insertionSort,
      List.orderedInsert]
  have hsort : List.insertionSort pair_lex
      [((2 : Nat), (9 : ℚ)/10), (0, 8/10)] = [(0, 8/10), (2, 9/10)] := by
    norm_num [List.insertionSort, List.orderedInsert, pair_lex]
  refine ⟨?_, hrank, ?_⟩
  · intro scores k
    have hs : (List.insertionSort pair_lex
        (ranked_sentences scores k)).Sorted pair_lex :=
      List.sorted_insertionSort pair_lex _
    refine List.Pairwise.map Prod.fst ?_ hs
    intro a b hab
    simp only [pair_lex] at hab
    rcases hab with h | ⟨e, _⟩
    · exact Nat.le_of_lt h
    · exact Nat.le_of_eq e
  · rw [extract_summary, hrank, hsort]
    decide

/-! Claim C10: backfill termination with an empty collaborator. -/

theorem gather_urls_empty_search (sources : List String) (need : Nat) :
    ∀ (ts acc : List String),
      gather_urls (fun _ _ _ => []) sources need ts acc = acc := by
  intro ts
  induction ts with
  | nil => intro acc; rfl
  | cons t ts ih =>
    intro acc
    rw [gather_urls]
    simp only [List.append_nil]
    by_cases h : need ≤ acc.length
    · rw [if_pos h]
    · rw [if_neg h]; exact ih acc

/-- Claim C10: `ensure_content` is a total function of the pool and the
collaborators (the embedded loops are bounded by the title and URL lists),
and with a collaborator that always returns no candidates it returns the
pool unchanged; with threshold 5 and the empty pool the content size stays
0. -/
theorem c10_ensure_content_empty_collaborator_terminates :
    (∀ (fetch : String → Option RawSourceItem) (pool : Pool)
        (content_len : Nat),
      ensure_content (fun _ _ _ => []) fetch pool content_len = pool) ∧
    (ensure_content (fun _ _ _ => []) (fun _ => none) empty_pool
        empty_pool.imgs.length).imgs.length = 0 := by
  have hmain : ∀ (fetch : String → Option RawSourceItem) (pool : Pool)
      (content_len : Nat),
      ensure_content (fun _ _ _ => []) fetch pool content_len = pool := by
    intro fetch pool content_len
    rw [ensure_content]
    by_cases h : content_len < pool.min_content_threshold
    · rw [if_pos h]
      simp only [gather_urls_empty_search]
      rfl
    · rw [if_neg h]
  refine ⟨hmain, ?_⟩
  rw [hmain]
  decide

end LP
